import Mathlib

/-
Verification of the play-aggregation pipeline in
`src/mirror-match/scripts/build_plays_with_filters.py`.

The pipeline joins a pre-event ("input", snap to throw) tracking table and a
post-event ("output", throw to catch) tracking table with a play-by-play
metadata table, and emits per-play JSON records plus a per-team tendency
rollup.  Tables are embedded as lists of records; pandas row filters become
`List.filter`, `groupby` subgroups become filters on the group key, and
`sort_values` becomes `mergeSort`.  Python floats are modelled as exact
rationals (for the raw columns) and reals (for the derived distances, since
they involve square roots); `round(x, 1)` is modelled with Mathlib's `round`
(round half up; Python rounds half to even, a difference none of the claims
touch).
-/

/-- One row of a BDB tracking CSV (either the input or the output table),
restricted to the columns the pipeline reads. -/
structure Row where
  game_id : Int
  play_id : Int
  nfl_id : Int
  frame_id : Int
  x : ℚ
  y : ℚ
  s : Option ℚ
  player_name : String
  player_position : String
  player_side : String
  player_role : String
  play_direction : String
  absolute_yardline_number : ℚ
  ball_land_x : Option ℚ
  ball_land_y : Option ℚ
  deriving DecidableEq, Inhabited

/-- One row of the nflverse play-by-play table, restricted to the columns
loaded by `load_nflverse_data`.  `none` models a missing (NaN) cell, i.e. a
cell on which `pd.notna` is false. -/
structure NflRow where
  game_id : Int
  play_id : Int
  down : Option Int
  ydstogo : Option Int
  play_type : Option String
  yards_gained : Option Int
  shotgun : Option Bool
  pass_length : Option String
  pass_location : Option String
  posteam : Option String
  defteam : Option String
  qtr : Option Int
  desc : Option String
  deriving DecidableEq, Inhabited

/-- One emitted frame dictionary in a player's frame list. -/
structure FrameObj where
  f : Int
  x : ℚ
  y : ℚ
  s : ℚ
  deriving DecidableEq, Inhabited

/-- One emitted player dictionary inside a play record. -/
structure PlayerObj where
  nflId : Int
  name : String
  position : String
  side : String
  role : String
  team : String
  frames : List FrameObj
  deriving DecidableEq, Inhabited

/-- The metadata fields that `build_play_data` copies into a play record when
a matching nflverse row exists.  In Python these are extra keys set on the
play dictionary; they are grouped into one optional block here. -/
structure MetaObj where
  down : Int
  yardsToGo : Int
  playType : String
  yardsGained : Int
  shotgun : Bool
  passLength : Option String
  passLocation : Option String
  offense : String
  defense : String
  quarter : Int
  description : String
  deriving DecidableEq, Inhabited

/-- One emitted play record (`play_obj` in `build_play_data`). -/
structure PlayObj where
  gameId : Int
  playId : Int
  direction : String
  yardline : Int
  ballLandX : Option ℚ
  ballLandY : Option ℚ
  numFrames : Int
  numInputFrames : Int
  numOutputFrames : Int
  players : List PlayerObj
  coverageTightness : Option ℝ
  separation : Option ℝ
  fieldZone : String
  playMeta : Option MetaObj

/-- Python's `round(q, 1)` on a rational value: round to one decimal. -/
def round1q (q : ℚ) : ℚ := ((round (10 * q) : ℤ) : ℚ) / 10

/-- Python's `round(v, 1)` on a real value: round to one decimal. -/
noncomputable def round1 (v : ℝ) : ℝ := ((round (10 * v) : ℤ) : ℝ) / 10

/-- Python's `int(q)`: truncation toward zero. -/
def intTrunc (q : ℚ) : Int := q.num / (q.den : Int)

/-- Pandas `series.max()` over the `frame_id` column of a list of rows,
as used at lines 90 and 144 of the script.  The `0` base is never reached:
both call sites pass a non-empty group. -/
def maxFrameId (play : List Row) : Int :=
  (play.map (fun r => r.frame_id)).foldl max 0

/-- Pandas `series.min()` over a non-empty list of values (line 84 / 104).
The `[]` case is unreachable at both call sites. -/
noncomputable def seriesMin : List ℝ → ℝ
  | [] => 0
  | a :: l => l.foldl min a

/-- One defender row's Euclidean distance to the target position, as in
`np.sqrt((dbs['x'] - target_x)**2 + (dbs['y'] - target_y)**2)`. -/
noncomputable def distTo (target_x target_y : ℚ) (r : Row) : ℝ :=
  Real.sqrt (((r.x : ℝ) - (target_x : ℝ)) ^ 2 + ((r.y : ℝ) - (target_y : ℝ)) ^ 2)

/-- The rows of a play's table that sit at frame index `fr`. -/
def frameRows (play : List Row) (fr : Int) : List Row :=
  play.filter (fun r => decide (r.frame_id = fr))

/-- The rows at frame `fr` whose role is the targeted receiver. -/
def targetsAt (play : List Row) (fr : Int) : List Row :=
  (frameRows play fr).filter (fun r => decide (r.player_role = "Targeted Receiver"))

/-- The rows at frame `fr` on the defensive side. -/
def defendersAt (play : List Row) (fr : Int) : List Row :=
  (frameRows play fr).filter (fun r => decide (r.player_side = "Defense"))

/-- The shared procedure of `compute_coverage_tightness` and
`compute_separation_at_target`: at frame `fr` of the play, take the first
row tagged as targeted receiver (None if there is none), take the defensive
rows (None if there are none), and return the minimum distance from the
first target row to the defensive rows. -/
noncomputable def metricAtFrame (play : List Row) (fr : Int) : Option ℝ :=
  match targetsAt play fr with
  | [] => none
  | t :: _ =>
    match defendersAt play fr with
    | [] => none
    | d :: ds => some (seriesMin ((d :: ds).map (distTo t.x t.y)))

/-- Direct translation of `compute_coverage_tightness(play_df)` (lines
63-84): filter to `frame_id == 1`, pick the rows whose `player_role` is
`'Targeted Receiver'` (returning None if empty, otherwise using
`.values[0]`, the first one), pick the rows whose `player_side` is
`'Defense'` (returning None if empty), return the minimum distance. -/
noncomputable def compute_coverage_tightness (play : List Row) : Option ℝ :=
  let snap_frame := play.filter (fun r => decide (r.frame_id = 1))
  match snap_frame.filter (fun r => decide (r.player_role = "Targeted Receiver")) with
  | [] => none
  | t :: _ =>
    match snap_frame.filter (fun r => decide (r.player_side = "Defense")) with
    | [] => none
    | d :: ds => some (seriesMin ((d :: ds).map (distTo t.x t.y)))

/-- Direct translation of `compute_separation_at_target(play_df)` (lines
86-104): the same computation, but on the rows whose `frame_id` equals
`play_df['frame_id'].max()`. -/
noncomputable def compute_separation_at_target (play : List Row) : Option ℝ :=
  let max_frame := maxFrameId play
  let last_frame := play.filter (fun r => decide (r.frame_id = max_frame))
  match last_frame.filter (fun r => decide (r.player_role = "Targeted Receiver")) with
  | [] => none
  | t :: _ =>
    match last_frame.filter (fun r => decide (r.player_side = "Defense")) with
    | [] => none
    | d :: ds => some (seriesMin ((d :: ds).map (distTo t.x t.y)))

/-- Direct translation of `get_field_zone(yardline)` (lines 106-115);
`none` models a NaN input (`pd.isna`). -/
def get_field_zone (yardline : Option ℚ) : String :=
  match yardline with
  | none => "unknown"
  | some v => if v ≤ 20 then "redzone" else if v ≤ 50 then "midfield" else "own_territory"

/-- Pandas `df.sort_values('frame_id')`: a stable sort by frame index. -/
def sortByFrame (rows : List Row) : List Row :=
  rows.mergeSort (fun a b => decide (a.frame_id ≤ b.frame_id))

/-- The subgroup of `rows` for one player, i.e. one group of
`groupby('nfl_id')`. -/
def playerRows (rows : List Row) (pid : Int) : List Row :=
  rows.filter (fun r => decide (r.nfl_id = pid))

/-- The distinct player ids of a play's input group, i.e. the keys of
`input_play_df.groupby('nfl_id')` (key order is irrelevant to every claim). -/
def playerIds (rows : List Row) : List Int :=
  (rows.map (fun r => r.nfl_id)).dedup

/-- One input frame dictionary (lines 163-169): speed defaults to 0 when the
`s` cell is missing. -/
def mkInputFrame (r : Row) : FrameObj :=
  { f := r.frame_id, x := round1q r.x, y := round1q r.y,
    s := match r.s with | some v => round1q v | none => 0 }

/-- One output frame dictionary (lines 174-180): the frame index is offset
by the play's maximum input frame and the speed is hard-coded to 0. -/
def mkOutputFrame (off : Int) (r : Row) : FrameObj :=
  { f := r.frame_id + off, x := round1q r.x, y := round1q r.y, s := 0 }

/-- The frame list of one player (lines 160-180): the player's input rows in
frame order, followed by the player's output rows in frame order with
offset frame indices, the latter only when the play has an output group
containing this player's id. -/
def playerFrames (input_play output_play : List Row) (has_output : Bool)
    (max_input_frame pid : Int) : List FrameObj :=
  (sortByFrame (playerRows input_play pid)).map mkInputFrame ++
    (if has_output ∧ pid ∈ output_play.map (fun r => r.nfl_id) then
      (sortByFrame (playerRows output_play pid)).map (mkOutputFrame max_input_frame)
    else [])

/-- One player dictionary (lines 156-190); `first_player` is the first row
of the player's sorted input subgroup. -/
def build_player (input_play output_play : List Row) (has_output : Bool)
    (max_input_frame pid : Int) : PlayerObj :=
  let first_player := (sortByFrame (playerRows input_play pid)).headI
  { nflId := pid,
    name := first_player.player_name,
    position := first_player.player_position,
    side := first_player.player_side,
    role := first_player.player_role,
    team := if first_player.player_side = "Offense" then "away" else "home",
    frames := playerFrames input_play output_play has_output max_input_frame pid }

/-- The expression `round(x, 1) if x else None` applied to an optional
metric value at lines 209-210: a missing value stays missing, a zero value
is falsy and also becomes None, anything else is rounded to one decimal. -/
noncomputable def truthyRound (o : Option ℝ) : Option ℝ :=
  match o with
  | none => none
  | some v => if v = 0 then none else some (round1 v)

/-- The metadata lookup of line 134:
`nfl_df[(nfl_df['game_id'] == game_id) & (nfl_df['play_id'] == play_id)]`. -/
def nflMatch (nfl_df : List NflRow) (game_id play_id : Int) : List NflRow :=
  nfl_df.filter (fun r => decide (r.game_id = game_id ∧ r.play_id = play_id))

/-- The body of the per-play loop of `build_play_data` (lines 129-229) for
one `(game_id, play_id)` group of the input table.  `output_play_opt` is
`some` of the matching output group when `get_group` succeeds and `none`
when the lookup raises (`has_output = False`); `nfl_df` is the full metadata
table, filtered here by the composite key exactly as at line 134. -/
noncomputable def build_play (game_id play_id : Int) (input_play : List Row)
    (output_play_opt : Option (List Row)) (nfl_df : List NflRow) : PlayObj :=
  let nfl_play := nflMatch nfl_df game_id play_id
  let first_row := input_play.headI
  let coverage_tightness := compute_coverage_tightness input_play
  let separation := compute_separation_at_target input_play
  let max_input_frame := maxFrameId input_play
  let has_output := output_play_opt.isSome
  let output_play := output_play_opt.getD []
  let max_output_frame := if has_output ∧ output_play ≠ [] then maxFrameId output_play else 0
  { gameId := game_id,
    playId := play_id,
    direction := first_row.play_direction,
    yardline := intTrunc first_row.absolute_yardline_number,
    ballLandX := first_row.ball_land_x,
    ballLandY := first_row.ball_land_y,
    numFrames := max_input_frame + max_output_frame,
    numInputFrames := max_input_frame,
    numOutputFrames := if has_output then max_output_frame else 0,
    players := (playerIds input_play).map
      (fun pid => build_player input_play output_play has_output max_input_frame pid),
    coverageTightness := truthyRound coverage_tightness,
    separation := truthyRound separation,
    fieldZone := get_field_zone (some first_row.absolute_yardline_number),
    playMeta :=
      match nfl_play with
      | [] => none
      | nfl_row :: _ => some
        { down := nfl_row.down.getD 0,
          yardsToGo := nfl_row.ydstogo.getD 0,
          playType := nfl_row.play_type.getD "unknown",
          yardsGained := nfl_row.yards_gained.getD 0,
          shotgun := nfl_row.shotgun.getD false,
          passLength := nfl_row.pass_length,
          passLocation := nfl_row.pass_location,
          offense := nfl_row.posteam.getD "UNK",
          defense := nfl_row.defteam.getD "UNK",
          quarter := nfl_row.qtr.getD 1,
          description := nfl_row.desc.getD "" } }

/-- Python `play.get('offense', 'UNK')` on a play record. -/
def offenseOf (p : PlayObj) : String :=
  match p.playMeta with
  | none => "UNK"
  | some m => m.offense

/-- Python `play.get('playType')`: `none` when the metadata block is absent. -/
def playTypeOf (p : PlayObj) : Option String :=
  p.playMeta.map (fun m => m.playType)

/-- Python `play.get('yardsGained', 0)`. -/
def yardsGainedOf (p : PlayObj) : Int :=
  match p.playMeta with
  | none => 0
  | some m => m.yardsGained

/-- Truthiness of `p.get('coverageTightness')`: a present, non-zero value.
(`None` and `0.0` are both falsy in Python.) -/
def covTruthy (p : PlayObj) : Prop :=
  match p.coverageTightness with
  | none => False
  | some v => v ≠ 0

noncomputable instance (p : PlayObj) : Decidable (covTruthy p) := by
  unfold covTruthy
  match p.coverageTightness with
  | none => exact inferInstanceAs (Decidable False)
  | some v => exact inferInstanceAs (Decidable (v ≠ 0))

/-- The plays of a team group with a truthy coverage value, i.e. Python's
`[p for p in team_plays if p.get('coverageTightness')]` (line 260). -/
noncomputable def covPlays (g : List PlayObj) : List PlayObj :=
  g.filter (fun p => decide (covTruthy p))

/-- The numerator of `avgCoverage` (line 260). -/
noncomputable def covSum (g : List PlayObj) : ℝ :=
  ((covPlays g).map (fun p => p.coverageTightness.getD 0)).sum

/-- The denominator of `avgCoverage` (line 260): clamped to at least 1 by
`max(1, ...)`. -/
noncomputable def covDen (g : List PlayObj) : ℕ :=
  max 1 (covPlays g).length

/-- Python `[p for p in team_plays if p.get('playType') == 'pass']`. -/
def pass_plays (g : List PlayObj) : List PlayObj :=
  g.filter (fun p => decide (playTypeOf p = some "pass"))

/-- Python `[p for p in team_plays if p.get('playType') == 'run']`. -/
def run_plays (g : List PlayObj) : List PlayObj :=
  g.filter (fun p => decide (playTypeOf p = some "run"))

/-- The statistics emitted for one retained team (lines 254-261); the
`overall` sub-dictionary is flattened into the same record. -/
structure TeamStats where
  totalPlays : ℕ
  passRate : ℝ
  runRate : ℝ
  avgYards : ℝ
  avgCoverage : ℝ

/-- The per-team statistics dictionary built at lines 254-261. -/
noncomputable def mkStats (team_plays : List PlayObj) : TeamStats :=
  { totalPlays := team_plays.length,
    passRate :=
      match team_plays with
      | [] => 0
      | _ :: _ => ((pass_plays team_plays).length : ℝ) / (team_plays.length : ℝ),
    runRate :=
      match team_plays with
      | [] => 0
      | _ :: _ => ((run_plays team_plays).length : ℝ) / (team_plays.length : ℝ),
    avgYards := ((team_plays.map (fun p => (yardsGainedOf p : ℝ))).sum) / (team_plays.length : ℝ),
    avgCoverage := covSum team_plays / (covDen team_plays : ℝ) }

/-- The distinct offense-team keys of the `teams` dictionary built at lines
239-244 (key order is irrelevant to every claim). -/
def teamKeys (plays : List PlayObj) : List String :=
  (plays.map offenseOf).dedup

/-- The group of plays collected under one offense-team key. -/
def teamPlays (plays : List PlayObj) (team : String) : List PlayObj :=
  plays.filter (fun p => decide (offenseOf p = team))

/-- Direct translation of `compute_tendencies(plays)` (lines 233-264) as an
association list: group the plays by offense team, skip any team with fewer
than 10 plays, and emit the per-team statistics for the rest. -/
noncomputable def compute_tendencies (plays : List PlayObj) : List (String × TeamStats) :=
  (teamKeys plays).filterMap (fun team =>
    if (teamPlays plays team).length < 10 then none
    else some (team, mkStats (teamPlays plays team)))

/-- Folding `max` over a list bounds the base and every element. -/
theorem le_foldl_max {α : Type} [LinearOrder α] (b : α) (l : List α) :
    b ≤ l.foldl max b ∧ ∀ x ∈ l, x ≤ l.foldl max b := by
  induction l generalizing b with
  | nil => exact ⟨le_refl b, by simp⟩
  | cons a l ih =>
    simp only [List.foldl_cons]
    refine ⟨le_trans (le_max_left b a) (ih (max b a)).1, ?_⟩
    intro x hx
    rcases List.mem_cons.mp hx with rfl | hx
    · exact le_trans (le_max_right b x) (ih (max b x)).1
    · exact (ih (max b a)).2 x hx

/-- The result of folding `max` is the base or one of the elements. -/
theorem foldl_max_mem {α : Type} [LinearOrder α] (b : α) (l : List α) :
    l.foldl max b = b ∨ l.foldl max b ∈ l := by
  induction l generalizing b with
  | nil => exact Or.inl rfl
  | cons a l ih =>
    simp only [List.foldl_cons]
    rcases ih (max b a) with h | h
    · rcases max_choice b a with hba | hba
      · exact Or.inl (h.trans hba)
      · exact Or.inr (by rw [h, hba]; exact List.mem_cons_self a l)
    · exact Or.inr (List.mem_cons_of_mem a h)

/-- Folding `min` over a list is below the base and every element. -/
theorem foldl_min_le {α : Type} [LinearOrder α] (b : α) (l : List α) :
    l.foldl min b ≤ b ∧ ∀ x ∈ l, l.foldl min b ≤ x := by
  induction l generalizing b with
  | nil => exact ⟨le_refl b, by simp⟩
  | cons a l ih =>
    simp only [List.foldl_cons]
    refine ⟨le_trans (ih (min b a)).1 (min_le_left b a), ?_⟩
    intro x hx
    rcases List.mem_cons.mp hx with rfl | hx
    · exact le_trans (ih (min b x)).1 (min_le_right b x)
    · exact (ih (min b a)).2 x hx

/-- The result of folding `min` is the base or one of the elements. -/
theorem foldl_min_mem {α : Type} [LinearOrder α] (b : α) (l : List α) :
    l.foldl min b = b ∨ l.foldl min b ∈ l := by
  induction l generalizing b with
  | nil => exact Or.inl rfl
  | cons a l ih =>
    simp only [List.foldl_cons]
    rcases ih (min b a) with h | h
    · rcases min_choice b a with hba | hba
      · exact Or.inl (h.trans hba)
      · exact Or.inr (by rw [h, hba]; exact List.mem_cons_self a l)
    · exact Or.inr (List.mem_cons_of_mem a h)

/-- The minimum of a non-empty series is one of its values. -/
theorem seriesMin_mem (a : ℝ) (l : List ℝ) : seriesMin (a :: l) ∈ a :: l := by
  show l.foldl min a ∈ a :: l
  rcases foldl_min_mem a l with h | h
  · rw [h]; exact List.mem_cons_self a l
  · exact List.mem_cons_of_mem a h

/-- The minimum of a non-empty series is a lower bound of its values. -/
theorem seriesMin_le (a : ℝ) (l : List ℝ) : ∀ x ∈ a :: l, seriesMin (a :: l) ≤ x := by
  intro x hx
  show l.foldl min a ≤ x
  rcases List.mem_cons.mp hx with rfl | hx
  · exact (foldl_min_le x l).1
  · exact (foldl_min_le a l).2 x hx

/-- The coverage-tightness function is the shared procedure at frame 1. -/
theorem coverage_eq_metricAtFrame (play : List Row) :
    compute_coverage_tightness play = metricAtFrame play 1 := rfl

/-- The separation function is the shared procedure at the maximum frame
index of the play's table. -/
theorem separation_eq_metricAtFrame (play : List Row) :
    compute_separation_at_target play = metricAtFrame play (maxFrameId play) := rfl

/-- The shared metric is None exactly when the frame has no target row or no
defensive row. -/
theorem metricAtFrame_eq_none_iff (play : List Row) (fr : Int) :
    metricAtFrame play fr = none ↔ targetsAt play fr = [] ∨ defendersAt play fr = [] := by
  unfold metricAtFrame
  cases h1 : targetsAt play fr with
  | nil => simp
  | cons t ts =>
    cases h2 : defendersAt play fr with
    | nil => simp
    | cons d ds => simp

/-- Reduction of the shared metric when both a target row and defender rows
are present. -/
theorem metricAtFrame_eq_some (play : List Row) (fr : Int) (t : Row) (ts : List Row)
    (d : Row) (ds : List Row) (h1 : targetsAt play fr = t :: ts)
    (h2 : defendersAt play fr = d :: ds) :
    metricAtFrame play fr = some (seriesMin ((d :: ds).map (distTo t.x t.y))) := by
  unfold metricAtFrame
  rw [h1, h2]

/-- Each defender distance is a square root, hence non-negative. -/
theorem distTo_nonneg (tx ty : ℚ) (r : Row) : 0 ≤ distTo tx ty r :=
  Real.sqrt_nonneg _

/-- Any value produced by the shared metric is non-negative. -/
theorem metricAtFrame_nonneg (play : List Row) (fr : Int) (v : ℝ)
    (h : metricAtFrame play fr = some v) : 0 ≤ v := by
  unfold metricAtFrame at h
  cases h1 : targetsAt play fr with
  | nil => rw [h1] at h; exact absurd h (by simp)
  | cons t ts =>
    rw [h1] at h
    cases h2 : defendersAt play fr with
    | nil => rw [h2] at h; exact absurd h (by simp)
    | cons d ds =>
      rw [h2] at h
      simp only [Option.some.injEq] at h
      have hm := seriesMin_mem (distTo t.x t.y d) (ds.map (distTo t.x t.y))
      rw [← List.map_cons] at hm
      rcases List.mem_map.mp hm with ⟨r, hr, hrv⟩
      rw [← h, ← hrv]
      exact distTo_nonneg t.x t.y r

/-- When a target row and defender rows are present, the shared metric is
some value that is attained at a defender and is a lower bound over all
defenders. -/
theorem metricAtFrame_min_spec (play : List Row) (fr : Int) (t : Row) (ts : List Row)
    (h1 : targetsAt play fr = t :: ts) (h2 : defendersAt play fr ≠ []) :
    ∃ v, metricAtFrame play fr = some v ∧
      (∃ d ∈ defendersAt play fr, v = distTo t.x t.y d) ∧
      ∀ d ∈ defendersAt play fr, v ≤ distTo t.x t.y d := by
  cases hd : defendersAt play fr with
  | nil => exact absurd hd h2
  | cons d ds =>
    refine ⟨seriesMin ((d :: ds).map (distTo t.x t.y)),
      metricAtFrame_eq_some play fr t ts d ds h1 hd, ?_, ?_⟩
    · have hm := seriesMin_mem (distTo t.x t.y d) (ds.map (distTo t.x t.y))
      rw [← List.map_cons] at hm
      rcases List.mem_map.mp hm with ⟨r, hr, hrv⟩
      exact ⟨r, hr, hrv.symm⟩
    · intro d2 hd2
      have hmem : distTo t.x t.y d2 ∈ distTo t.x t.y d :: ds.map (distTo t.x t.y) :=
        List.mem_map_of_mem _ hd2
      exact seriesMin_le _ _ _ hmem

/-- Transitivity of the boolean frame-index comparison used by the sort. -/
theorem frameLe_trans (a b c : Row) (h1 : decide (a.frame_id ≤ b.frame_id) = true)
    (h2 : decide (b.frame_id ≤ c.frame_id) = true) :
    decide (a.frame_id ≤ c.frame_id) = true := by
  simp only [decide_eq_true_eq] at h1 h2 ⊢
  exact le_trans h1 h2

/-- Totality of the boolean frame-index comparison used by the sort. -/
theorem frameLe_total (a b : Row) :
    (decide (a.frame_id ≤ b.frame_id) || decide (b.frame_id ≤ a.frame_id)) = true := by
  simp only [Bool.or_eq_true, decide_eq_true_eq]
  exact le_total a.frame_id b.frame_id

/-- Sorting by frame index permutes the rows. -/
theorem sortByFrame_perm (rows : List Row) : (sortByFrame rows).Perm rows :=
  List.mergeSort_perm rows _

/-- Sorting by frame index preserves membership. -/
theorem sortByFrame_mem (rows : List Row) (r : Row) : r ∈ sortByFrame rows ↔ r ∈ rows :=
  (sortByFrame_perm rows).mem_iff

/-- The sorted rows are pairwise ordered by frame index. -/
theorem sortByFrame_pairwise_le (rows : List Row) :
    List.Pairwise (fun a b : Row => a.frame_id ≤ b.frame_id) (sortByFrame rows) := by
  have h := List.sorted_mergeSort frameLe_trans frameLe_total rows
  exact h.imp (fun hab => of_decide_eq_true hab)

/-- With distinct frame indices, the sorted rows are pairwise strictly
ordered by frame index. -/
theorem sortByFrame_pairwise_lt (rows : List Row)
    (h : (rows.map (fun r => r.frame_id)).Nodup) :
    List.Pairwise (fun a b : Row => a.frame_id < b.frame_id) (sortByFrame rows) := by
  have hle := sortByFrame_pairwise_le rows
  have hperm : ((sortByFrame rows).map (fun r => r.frame_id)).Perm
      (rows.map (fun r => r.frame_id)) := (sortByFrame_perm rows).map _
  have hnd : ((sortByFrame rows).map (fun r => r.frame_id)).Nodup :=
    hperm.nodup_iff.mpr h
  have hne : List.Pairwise (fun a b : Row => a.frame_id ≠ b.frame_id) (sortByFrame rows) :=
    List.pairwise_map.mp hnd
  exact (hle.and hne).imp (fun hab => lt_of_le_of_ne hab.1 hab.2)

/-- Every row's frame index is bounded by the play's maximum frame index. -/
theorem maxFrameId_le (play : List Row) (r : Row) (h : r ∈ play) :
    r.frame_id ≤ maxFrameId play :=
  (le_foldl_max 0 (play.map (fun r => r.frame_id))).2 _ (List.mem_map_of_mem _ h)

/-- On a non-empty play with 1-based frame indices, the maximum frame index
is attained by some row. -/
theorem maxFrameId_mem (play : List Row) (hne : play ≠ [])
    (hpos : ∀ r ∈ play, 1 ≤ r.frame_id) :
    ∃ r ∈ play, r.frame_id = maxFrameId play := by
  rcases foldl_max_mem 0 (play.map (fun r => r.frame_id)) with h | h
  · change maxFrameId play = 0 at h
    cases play with
    | nil => exact absurd rfl hne
    | cons a l =>
      have h1 : (1 : Int) ≤ a.frame_id := hpos a (List.mem_cons_self a l)
      have h2 : a.frame_id ≤ maxFrameId (a :: l) := maxFrameId_le _ a (List.mem_cons_self a l)
      rw [h] at h2
      omega
  · rcases List.mem_map.mp h with ⟨r, hr, hrv⟩
    exact ⟨r, hr, hrv⟩

/-- Rounding to one decimal preserves non-negativity. -/
theorem round1_nonneg (v : ℝ) (h : 0 ≤ v) : 0 ≤ round1 v := by
  unfold round1
  have h1 : (0 : ℤ) ≤ round (10 * v) := by
    rw [round_eq]
    have h2 : (0 : ℝ) ≤ 10 * v + 1 / 2 := by linarith
    exact Int.le_floor.mpr (by exact_mod_cast h2)
  have h3 : (0 : ℝ) ≤ ((round (10 * v) : ℤ) : ℝ) := by exact_mod_cast h1
  exact div_nonneg h3 (by norm_num)

/-- The record-level metric is None exactly when the raw metric is None or
exactly zero (Python falsiness). -/
theorem truthyRound_eq_none_iff (o : Option ℝ) :
    truthyRound o = none ↔ o = none ∨ o = some 0 := by
  cases o with
  | none => simp [truthyRound]
  | some v =>
    by_cases hv : v = 0
    · subst hv
      simp [truthyRound]
    · simp [truthyRound, hv]

/-- A present record-level metric value is non-negative whenever the raw
metric only takes non-negative values. -/
theorem truthyRound_nonneg (o : Option ℝ) (v : ℝ) (h : truthyRound o = some v)
    (h2 : ∀ w, o = some w → 0 ≤ w) : 0 ≤ v := by
  cases o with
  | none => exact absurd h (by simp [truthyRound])
  | some w =>
    by_cases hw : w = 0
    · rw [truthyRound, if_pos hw] at h
      exact absurd h (by simp)
    · rw [truthyRound, if_neg hw] at h
      have hv := Option.some.inj h
      rw [← hv]
      exact round1_nonneg w (h2 w rfl)

/-- The lengths of two disjoint filters of the same list sum to at most the
list's length. -/
theorem length_filter_disjoint_le {α : Type} (p q : α → Bool) (l : List α)
    (h : ∀ a ∈ l, ¬(p a = true ∧ q a = true)) :
    (l.filter p).length + (l.filter q).length ≤ l.length := by
  induction l with
  | nil => simp
  | cons a l ih =>
    have ha := h a (List.mem_cons_self a l)
    have ih2 := ih (fun b hb => h b (List.mem_cons_of_mem a hb))
    by_cases hp : p a = true <;> by_cases hq : q a = true
    · exact absurd ⟨hp, hq⟩ ha
    · simp only [List.filter_cons, if_pos hp, if_neg hq, List.length_cons]
      omega
    · simp only [List.filter_cons, if_neg hp, if_pos hq, List.length_cons]
      omega
    · simp only [List.filter_cons, if_neg hp, if_neg hq, List.length_cons]
      omega

/-- Projection: the players list of a built play record. -/
theorem build_play_players (game_id play_id : Int) (input_play : List Row)
    (out_opt : Option (List Row)) (nfl_df : List NflRow) :
    (build_play game_id play_id input_play out_opt nfl_df).players =
      (playerIds input_play).map (fun pid =>
        build_player input_play (out_opt.getD []) out_opt.isSome (maxFrameId input_play) pid) := rfl

/-- Projection: the input-frame count of a built play record. -/
theorem build_play_numInputFrames (game_id play_id : Int) (input_play : List Row)
    (out_opt : Option (List Row)) (nfl_df : List NflRow) :
    (build_play game_id play_id input_play out_opt nfl_df).numInputFrames =
      maxFrameId input_play := rfl

/-- Projection: the total frame count of a built play record. -/
theorem build_play_numFrames (game_id play_id : Int) (input_play : List Row)
    (out_opt : Option (List Row)) (nfl_df : List NflRow) :
    (build_play game_id play_id input_play out_opt nfl_df).numFrames =
      maxFrameId input_play +
        (if out_opt.isSome ∧ out_opt.getD [] ≠ [] then maxFrameId (out_opt.getD []) else 0) := rfl

/-- Projection: the output-frame count of a built play record. -/
theorem build_play_numOutputFrames (game_id play_id : Int) (input_play : List Row)
    (out_opt : Option (List Row)) (nfl_df : List NflRow) :
    (build_play game_id play_id input_play out_opt nfl_df).numOutputFrames =
      (if out_opt.isSome then
        (if out_opt.isSome ∧ out_opt.getD [] ≠ [] then maxFrameId (out_opt.getD []) else 0)
      else 0) := rfl

/-- Projection: the record-level coverage tightness of a built play record. -/
theorem build_play_coverage (game_id play_id : Int) (input_play : List Row)
    (out_opt : Option (List Row)) (nfl_df : List NflRow) :
    (build_play game_id play_id input_play out_opt nfl_df).coverageTightness =
      truthyRound (compute_coverage_tightness input_play) := rfl

/-- Projection: the record-level separation of a built play record. -/
theorem build_play_separation (game_id play_id : Int) (input_play : List Row)
    (out_opt : Option (List Row)) (nfl_df : List NflRow) :
    (build_play game_id play_id input_play out_opt nfl_df).separation =
      truthyRound (compute_separation_at_target input_play) := rfl

/-- Projection: the metadata block of a built play record. -/
theorem build_play_playMeta (game_id play_id : Int) (input_play : List Row)
    (out_opt : Option (List Row)) (nfl_df : List NflRow) :
    (build_play game_id play_id input_play out_opt nfl_df).playMeta =
      (match nflMatch nfl_df game_id play_id with
      | [] => none
      | nfl_row :: _ => some
        { down := nfl_row.down.getD 0,
          yardsToGo := nfl_row.ydstogo.getD 0,
          playType := nfl_row.play_type.getD "unknown",
          yardsGained := nfl_row.yards_gained.getD 0,
          shotgun := nfl_row.shotgun.getD false,
          passLength := nfl_row.pass_length,
          passLocation := nfl_row.pass_location,
          offense := nfl_row.posteam.getD "UNK",
          defense := nfl_row.defteam.getD "UNK",
          quarter := nfl_row.qtr.getD 1,
          description := nfl_row.desc.getD "" }) := rfl

/-- Membership in the tendency rollup pins the statistics record down and
forces at least 10 plays in the team's group. -/
theorem mem_compute_tendencies (plays : List PlayObj) (team : String) (s : TeamStats)
    (h : (team, s) ∈ compute_tendencies plays) :
    s = mkStats (teamPlays plays team) ∧ 10 ≤ (teamPlays plays team).length := by
  unfold compute_tendencies at h
  rcases List.mem_filterMap.mp h with ⟨k, hk, hspec⟩
  by_cases hlen : (teamPlays plays k).length < 10
  · rw [if_pos hlen] at hspec
    exact absurd hspec (by simp)
  · rw [if_neg hlen] at hspec
    have h2 := Option.some.inj hspec
    have hk2 : k = team := congrArg Prod.fst h2
    have hs2 : mkStats (teamPlays plays k) = s := congrArg Prod.snd h2
    subst hk2
    exact ⟨hs2.symm, by omega⟩

/-- A template tracking row used by the concrete test plays below. -/
def baseRow : Row :=
  { game_id := 1, play_id := 1, nfl_id := 10, frame_id := 1, x := 0, y := 0, s := none,
    player_name := "P", player_position := "WR", player_side := "Offense",
    player_role := "Other Route Runner", play_direction := "right",
    absolute_yardline_number := 30, ball_land_x := none, ball_land_y := none }

/-- A targeted-receiver row at the origin, frame 1. -/
def targetRow1 : Row := { baseRow with player_role := "Targeted Receiver" }

/-- A second targeted-receiver row (distinct player) at frame 1. -/
def targetRow2 : Row :=
  { baseRow with nfl_id := 11, x := 5, y := 5, player_role := "Targeted Receiver" }

/-- A defender row at (3, 4), frame 1: distance 5 from the origin. -/
def defenderRow : Row :=
  { baseRow with
    nfl_id := 20, x := 3, y := 4,
    player_side := "Defense", player_role := "Defensive Coverage" }

/-- A play table with two targeted-receiver rows at frame 1. -/
def twoTargetPlay : List Row := [targetRow1, targetRow2, defenderRow]

/-- A play table whose rows all sit at frame index 2 (its first present
frame index is 2, not 1), with one target and one defender. -/
def lateStartPlay : List Row :=
  [{ targetRow1 with frame_id := 2 }, { defenderRow with frame_id := 2 }]

/-- A play table with one target row and one defender row at frame 1. -/
def onePlay : List Row := [targetRow1, defenderRow]

/-- C1 counterexample: the claim is false in two ways.  First, on a frame-1
table holding two rows with the target role, the claim says coverage
tightness is undefined (null), but the code returns a value (it silently
uses the first target row).  Second, on a table whose first (and only)
frame index is 2 with a well-defined target and defender, the claim says
the metric is the minimum distance at that first frame index, but the code
returns null because it filters on the literal frame index 1. -/
theorem coverage_claim_counterexample :
    ((targetsAt twoTargetPlay 1).length = 2 ∧ defendersAt twoTargetPlay 1 ≠ [] ∧
      compute_coverage_tightness twoTargetPlay ≠ none) ∧
    ((∀ r ∈ lateStartPlay, r.frame_id = 2) ∧ (targetsAt lateStartPlay 2).length = 1 ∧
      defendersAt lateStartPlay 2 ≠ [] ∧ compute_coverage_tightness lateStartPlay = none) := by
  constructor
  · refine ⟨by decide, by decide, ?_⟩
    have h1 : targetsAt twoTargetPlay 1 = [targetRow1, targetRow2] := by decide
    have h2 : defendersAt twoTargetPlay 1 = [defenderRow] := by decide
    rw [coverage_eq_metricAtFrame,
      metricAtFrame_eq_some twoTargetPlay 1 targetRow1 [targetRow2] defenderRow [] h1 h2]
    simp
  · refine ⟨by decide, by decide, by decide, ?_⟩
    rw [coverage_eq_metricAtFrame]
    exact (metricAtFrame_eq_none_iff lateStartPlay 1).mpr (Or.inl (by decide))

/-- C1 (amended): coverage tightness works on the rows at the literal frame
index 1 (not the first frame index present in the table); it is null exactly
when frame 1 has no target-role row or no defensive-side row; when at least
one target row is present (more than one does not make it null: the first
one is used) together with at least one defender, the result is the minimum
Euclidean distance from the first target row's position to the defenders'
positions at frame 1, and no error is raised in any case. -/
theorem coverage_tightness_amended_spec (play : List Row) :
    (compute_coverage_tightness play = none ↔
      targetsAt play 1 = [] ∨ defendersAt play 1 = []) ∧
    ∀ t ts, targetsAt play 1 = t :: ts → defendersAt play 1 ≠ [] →
      ∃ v, compute_coverage_tightness play = some v ∧
        (∃ d ∈ defendersAt play 1, v = distTo t.x t.y d) ∧
        ∀ d ∈ defendersAt play 1, v ≤ distTo t.x t.y d := by
  rw [coverage_eq_metricAtFrame]
  exact ⟨metricAtFrame_eq_none_iff play 1,
    fun t ts h1 h2 => metricAtFrame_min_spec play 1 t ts h1 h2⟩

/-- C1 witness: the amended coverage specification evaluated on a concrete
play with exactly one target row and one defender row at frame 1. -/
theorem coverage_tightness_amended_spec_witness :
    targetsAt onePlay 1 = [targetRow1] ∧ defendersAt onePlay 1 ≠ [] ∧
    ∃ v, compute_coverage_tightness onePlay = some v ∧
      (∃ d ∈ defendersAt onePlay 1, v = distTo targetRow1.x targetRow1.y d) ∧
      ∀ d ∈ defendersAt onePlay 1, v ≤ distTo targetRow1.x targetRow1.y d :=
  ⟨by decide, by decide,
    (coverage_tightness_amended_spec onePlay).2 targetRow1 [] (by decide) (by decide)⟩

/-- C2: separation is computed by the identical procedure as coverage
tightness (the shared metric), evaluated at the maximum frame index present
in the play's pre-event table rather than at frame 1, with the same null
conditions (no target row or no defensive row at that frame); on a
non-empty table with 1-based frame indices, that evaluation frame is indeed
the last frame index present. -/
theorem separation_last_frame_spec (play : List Row) :
    compute_coverage_tightness play = metricAtFrame play 1 ∧
    compute_separation_at_target play = metricAtFrame play (maxFrameId play) ∧
    (compute_separation_at_target play = none ↔
      targetsAt play (maxFrameId play) = [] ∨ defendersAt play (maxFrameId play) = []) ∧
    (play ≠ [] → (∀ r ∈ play, 1 ≤ r.frame_id) →
      (∃ r ∈ play, r.frame_id = maxFrameId play) ∧
        ∀ r ∈ play, r.frame_id ≤ maxFrameId play) := by
  refine ⟨coverage_eq_metricAtFrame play, separation_eq_metricAtFrame play, ?_, ?_⟩
  · rw [separation_eq_metricAtFrame]
    exact metricAtFrame_eq_none_iff play (maxFrameId play)
  · intro hne hpos
    exact ⟨maxFrameId_mem play hne hpos, fun r hr => maxFrameId_le play r hr⟩

/-- C2 witness: the separation specification evaluated on a concrete
non-empty play whose frames all carry index 2. -/
theorem separation_last_frame_spec_witness :
    lateStartPlay ≠ [] ∧ (∀ r ∈ lateStartPlay, 1 ≤ r.frame_id) ∧
    ((∃ r ∈ lateStartPlay, r.frame_id = maxFrameId lateStartPlay) ∧
      ∀ r ∈ lateStartPlay, r.frame_id ≤ maxFrameId lateStartPlay) :=
  ⟨by decide, by decide,
    (separation_last_frame_spec lateStartPlay).2.2.2 (by decide) (by decide)⟩

/-- C3: every emitted player's frame list is the player's sorted input
frames followed (when the player appears in the matched output group) by
the player's sorted output frames with indices shifted by the play-level
maximum input frame index; given the data-model invariants (1-based frame
indices in the output table and per-player distinct frame indices), the
frame indices are strictly increasing across the whole concatenated list. -/
theorem player_frames_strict_increasing (game_id play_id : Int) (input_play : List Row)
    (out_opt : Option (List Row)) (nfl_df : List NflRow)
    (hOutPos : ∀ r ∈ out_opt.getD [], 1 ≤ r.frame_id)
    (hInNodup : ∀ pid ∈ playerIds input_play,
      ((playerRows input_play pid).map (fun r => r.frame_id)).Nodup)
    (hOutNodup : ∀ pid ∈ playerIds input_play,
      ((playerRows (out_opt.getD []) pid).map (fun r => r.frame_id)).Nodup) :
    ∀ p ∈ (build_play game_id play_id input_play out_opt nfl_df).players,
      (∃ pid ∈ playerIds input_play,
        p.frames = playerFrames input_play (out_opt.getD []) out_opt.isSome
          (maxFrameId input_play) pid) ∧
      List.Pairwise (fun a b : FrameObj => a.f < b.f) p.frames := by
  intro p hp
  rw [build_play_players] at hp
  rcases List.mem_map.mp hp with ⟨pid, hpid, rfl⟩
  refine ⟨⟨pid, hpid, rfl⟩, ?_⟩
  show List.Pairwise (fun a b : FrameObj => a.f < b.f)
    (playerFrames input_play (out_opt.getD []) out_opt.isSome (maxFrameId input_play) pid)
  unfold playerFrames
  refine List.pairwise_append.mpr ⟨?_, ?_, ?_⟩
  · rw [List.pairwise_map]
    exact (sortByFrame_pairwise_lt _ (hInNodup pid hpid)).imp (fun hab => hab)
  · by_cases hc : out_opt.isSome ∧ pid ∈ (out_opt.getD []).map (fun r => r.nfl_id)
    · rw [if_pos hc, List.pairwise_map]
      exact (sortByFrame_pairwise_lt _ (hOutNodup pid hpid)).imp
        (fun hab => add_lt_add_right hab _)
    · rw [if_neg hc]
      exact List.Pairwise.nil
  · intro a ha b hb
    rcases List.mem_map.mp ha with ⟨ra, hra, rfl⟩
    by_cases hc : out_opt.isSome ∧ pid ∈ (out_opt.getD []).map (fun r => r.nfl_id)
    · rw [if_pos hc] at hb
      rcases List.mem_map.mp hb with ⟨rb, hrb, rfl⟩
      have h1 : ra.frame_id ≤ maxFrameId input_play :=
        maxFrameId_le _ _ (List.mem_filter.mp ((sortByFrame_mem _ _).mp hra)).1
      have h2 : (1 : Int) ≤ rb.frame_id :=
        hOutPos rb (List.mem_filter.mp ((sortByFrame_mem _ _).mp hrb)).1
      show ra.frame_id < rb.frame_id + maxFrameId input_play
      omega
    · rw [if_neg hc] at hb
      exact absurd hb (List.not_mem_nil b)

/-- A second input row for the same player as `targetRow1`, at frame 2. -/
def inRowB : Row := { targetRow1 with frame_id := 2, x := 1 }

/-- An output row for the same player as `targetRow1` (output frame 1). -/
def outRowA : Row := { targetRow1 with x := 2 }

/-- A concrete two-frame input group for one player. -/
def c3Input : List Row := [targetRow1, inRowB]

/-- A concrete one-frame output group for the same player. -/
def c3Output : List Row := [outRowA]

/-- C3 witness: the frame-merge specification evaluated on a concrete play
with one player, two input frames and one matched output frame. -/
theorem player_frames_strict_increasing_witness :
    (∀ r ∈ (some c3Output : Option (List Row)).getD [], 1 ≤ r.frame_id) ∧
    ∀ p ∈ (build_play 1 1 c3Input (some c3Output) []).players,
      (∃ pid ∈ playerIds c3Input,
        p.frames = playerFrames c3Input ((some c3Output : Option (List Row)).getD [])
          (some c3Output : Option (List Row)).isSome (maxFrameId c3Input) pid) ∧
      List.Pairwise (fun a b : FrameObj => a.f < b.f) p.frames :=
  ⟨by decide,
    player_frames_strict_increasing 1 1 c3Input (some c3Output) []
      (by decide) (by decide) (by decide)⟩

/-- C4: a play record's total frame count is the input group's maximum frame
index plus the matched output group's maximum frame index (plus 0 when no
output group matched); the two maxima are play-level quantities attained by
and bounding every row of the respective whole group, independent of any
single player's sequence length. -/
theorem total_frames_play_level (game_id play_id : Int) (input_play : List Row)
    (out_opt : Option (List Row)) (nfl_df : List NflRow)
    (hInNe : input_play ≠ []) (hInPos : ∀ r ∈ input_play, 1 ≤ r.frame_id)
    (hOut : ∀ out, out_opt = some out → out ≠ [] ∧ ∀ r ∈ out, 1 ≤ r.frame_id) :
    (out_opt = none →
      (build_play game_id play_id input_play out_opt nfl_df).numFrames =
        maxFrameId input_play) ∧
    (∀ out, out_opt = some out →
      (build_play game_id play_id input_play out_opt nfl_df).numFrames =
        maxFrameId input_play + maxFrameId out) ∧
    ((∃ r ∈ input_play, r.frame_id = maxFrameId input_play) ∧
      ∀ r ∈ input_play, r.frame_id ≤ maxFrameId input_play) ∧
    ∀ out, out_opt = some out →
      (∃ r ∈ out, r.frame_id = maxFrameId out) ∧
        ∀ r ∈ out, r.frame_id ≤ maxFrameId out := by
  refine ⟨?_, ?_, ⟨maxFrameId_mem _ hInNe hInPos, fun r hr => maxFrameId_le _ r hr⟩, ?_⟩
  · intro h
    subst h
    rw [build_play_numFrames]
    simp
  · intro out h
    subst h
    rw [build_play_numFrames]
    have hne := (hOut out rfl).1
    simp [hne]
  · intro out h
    obtain ⟨hne, hpos⟩ := hOut out h
    exact ⟨maxFrameId_mem out hne hpos, fun r hr => maxFrameId_le out r hr⟩

/-- C4 witness: the total-frame-count specification evaluated on the
concrete one-player play with a matched output group. -/
theorem total_frames_play_level_witness :
    c3Input ≠ [] ∧
    (build_play 1 1 c3Input (some c3Output) []).numFrames =
      maxFrameId c3Input + maxFrameId c3Output :=
  ⟨by decide,
    (total_frames_play_level 1 1 c3Input (some c3Output) [] (by decide) (by decide)
      (fun out h => by
        injection h with h2
        subst h2
        exact ⟨by decide, by decide⟩)).2.1 c3Output rfl⟩

/-- A metadata row matching key (1, 1) whose quarter cell is missing. -/
def nflRowNoQtr : NflRow :=
  { game_id := 1, play_id := 1, down := some 2, ydstogo := some 7,
    play_type := some "pass", yards_gained := some 5, shotgun := some true,
    pass_length := none, pass_location := none, posteam := some "KC",
    defteam := some "PHI", qtr := none, desc := some "test" }

/-- C5 counterexample: with a matching metadata row whose quarter cell is
missing, the emitted quarter field is 1, whereas the claim says every
numeric metadata field (including quarter) defaults to 0. -/
theorem metadata_quarter_counterexample :
    nflRowNoQtr.qtr = none ∧
    ((build_play 1 1 onePlay none [nflRowNoQtr]).playMeta).map (fun m => m.quarter) =
      some 1 := by
  constructor
  · rfl
  · rw [build_play_playMeta]
    have h : nflMatch [nflRowNoQtr] 1 1 = [nflRowNoQtr] := by decide
    rw [h]
    rfl

/-- C5 (amended): the metadata block is present exactly when a metadata row
matches the (game id, play id) key; when present, down, yards to go and
yards gained default to 0, play type to the literal `unknown`, team codes
to `UNK`, the shotgun flag to False, and quarter to 1 (not 0) when the
source cell is missing; when no row matches, the whole block is omitted. -/
theorem metadata_block_amended_spec (game_id play_id : Int) (input_play : List Row)
    (out_opt : Option (List Row)) (nfl_df : List NflRow) :
    ((build_play game_id play_id input_play out_opt nfl_df).playMeta = none ↔
      nflMatch nfl_df game_id play_id = []) ∧
    ∀ nr rest, nflMatch nfl_df game_id play_id = nr :: rest →
      ∃ m, (build_play game_id play_id input_play out_opt nfl_df).playMeta = some m ∧
        m.down = nr.down.getD 0 ∧ m.yardsToGo = nr.ydstogo.getD 0 ∧
        m.playType = nr.play_type.getD "unknown" ∧
        m.yardsGained = nr.yards_gained.getD 0 ∧
        m.shotgun = nr.shotgun.getD false ∧ m.offense = nr.posteam.getD "UNK" ∧
        m.defense = nr.defteam.getD "UNK" ∧ m.quarter = nr.qtr.getD 1 := by
  rw [build_play_playMeta]
  cases h : nflMatch nfl_df game_id play_id with
  | nil =>
    constructor
    · simp
    · intro nr rest hx
      exact absurd hx (by simp)
  | cons a l =>
    constructor
    · simp
    · intro nr rest hx
      have ha : a = nr := (List.cons.injEq a l nr rest ▸ hx).1
      subst ha
      exact ⟨_, rfl, rfl, rfl, rfl, rfl, rfl, rfl, rfl, rfl⟩

/-- C5 witness: the amended metadata specification evaluated on the concrete
matching metadata row with a missing quarter cell. -/
theorem metadata_block_amended_spec_witness :
    nflMatch [nflRowNoQtr] 1 1 = [nflRowNoQtr] ∧
    ∃ m, (build_play 1 1 onePlay none [nflRowNoQtr]).playMeta = some m ∧
      m.down = nflRowNoQtr.down.getD 0 ∧ m.yardsToGo = nflRowNoQtr.ydstogo.getD 0 ∧
      m.playType = nflRowNoQtr.play_type.getD "unknown" ∧
      m.yardsGained = nflRowNoQtr.yards_gained.getD 0 ∧
      m.shotgun = nflRowNoQtr.shotgun.getD false ∧
      m.offense = nflRowNoQtr.posteam.getD "UNK" ∧
      m.defense = nflRowNoQtr.defteam.getD "UNK" ∧
      m.quarter = nflRowNoQtr.qtr.getD 1 :=
  ⟨by decide,
    (metadata_block_amended_spec 1 1 onePlay none [nflRowNoQtr]).2 nflRowNoQtr []
      (by decide)⟩

/-- A defender row at the same position as `targetRow1` (distance 0). -/
def zeroDefRow : Row :=
  { baseRow with
    nfl_id := 21,
    player_side := "Defense", player_role := "Defensive Coverage" }

/-- A play whose target and defender coincide at frame 1. -/
def zeroDistPlay : List Row := [targetRow1, zeroDefRow]

/-- C6 counterexample: on a play whose target and defender rows are both
present at frame 1 but coincide, the raw metric is 0 and the emitted record
field is None (Python's truthiness check), so null-ness is not equivalent
to the absence of the required rows. -/
theorem zero_distance_null_counterexample :
    targetsAt zeroDistPlay 1 ≠ [] ∧ defendersAt zeroDistPlay 1 ≠ [] ∧
    compute_coverage_tightness zeroDistPlay = some 0 ∧
    (build_play 1 1 zeroDistPlay none []).coverageTightness = none := by
  have h1 : targetsAt zeroDistPlay 1 = [targetRow1] := by decide
  have h2 : defendersAt zeroDistPlay 1 = [zeroDefRow] := by decide
  have hd : distTo targetRow1.x targetRow1.y zeroDefRow = 0 := by
    have hx : (zeroDefRow.x : ℝ) - (targetRow1.x : ℝ) = 0 := by
      norm_num [targetRow1, zeroDefRow, baseRow]
    have hy : (zeroDefRow.y : ℝ) - (targetRow1.y : ℝ) = 0 := by
      norm_num [targetRow1, zeroDefRow, baseRow]
    show Real.sqrt (((zeroDefRow.x : ℝ) - (targetRow1.x : ℝ)) ^ 2 +
      ((zeroDefRow.y : ℝ) - (targetRow1.y : ℝ)) ^ 2) = 0
    rw [hx, hy]
    norm_num [Real.sqrt_zero]
  have hcov : compute_coverage_tightness zeroDistPlay = some 0 := by
    rw [coverage_eq_metricAtFrame,
      metricAtFrame_eq_some zeroDistPlay 1 targetRow1 [] zeroDefRow [] h1 h2]
    rw [List.map_cons, List.map_nil, hd]
    rfl
  refine ⟨by decide, by decide, hcov, ?_⟩
  rw [build_play_coverage, hcov]
  simp [truthyRound]

/-- C6 (amended): a play record's coverage tightness and separation are
non-negative whenever non-null, and each is null exactly when the required
target/defender rows are absent from its frame OR the raw computed minimum
distance is exactly zero (Python's truthiness check also nulls a legitimate
zero distance). -/
theorem metric_null_amended_spec (game_id play_id : Int) (input_play : List Row)
    (out_opt : Option (List Row)) (nfl_df : List NflRow) :
    ((build_play game_id play_id input_play out_opt nfl_df).coverageTightness = none ↔
      targetsAt input_play 1 = [] ∨ defendersAt input_play 1 = [] ∨
        compute_coverage_tightness input_play = some 0) ∧
    (∀ v, (build_play game_id play_id input_play out_opt nfl_df).coverageTightness =
      some v → 0 ≤ v) ∧
    ((build_play game_id play_id input_play out_opt nfl_df).separation = none ↔
      targetsAt input_play (maxFrameId input_play) = [] ∨
        defendersAt input_play (maxFrameId input_play) = [] ∨
        compute_separation_at_target input_play = some 0) ∧
    ∀ v, (build_play game_id play_id input_play out_opt nfl_df).separation =
      some v → 0 ≤ v := by
  refine ⟨?_, ?_, ?_, ?_⟩
  · rw [build_play_coverage, truthyRound_eq_none_iff, coverage_eq_metricAtFrame,
      metricAtFrame_eq_none_iff]
    exact or_assoc
  · intro v h
    rw [build_play_coverage] at h
    refine truthyRound_nonneg _ v h (fun w hw => ?_)
    rw [coverage_eq_metricAtFrame] at hw
    exact metricAtFrame_nonneg input_play 1 w hw
  · rw [build_play_separation, truthyRound_eq_none_iff, separation_eq_metricAtFrame,
      metricAtFrame_eq_none_iff]
    exact or_assoc
  · intro v h
    rw [build_play_separation] at h
    refine truthyRound_nonneg _ v h (fun w hw => ?_)
    rw [separation_eq_metricAtFrame] at hw
    exact metricAtFrame_nonneg input_play (maxFrameId input_play) w hw

/-- C6 witness: on the concrete play with the defender 5 yards from the
target, the record's coverage field is present and the amended specification
yields its non-negativity. -/
theorem metric_null_amended_spec_witness :
    (build_play 1 1 onePlay none []).coverageTightness = some (round1 5) ∧
    0 ≤ round1 5 := by
  have h1 : targetsAt onePlay 1 = [targetRow1] := by decide
  have h2 : defendersAt onePlay 1 = [defenderRow] := by decide
  have hd : distTo targetRow1.x targetRow1.y defenderRow = 5 := by
    have hx : ((defenderRow.x : ℝ) - (targetRow1.x : ℝ)) ^ 2 +
        ((defenderRow.y : ℝ) - (targetRow1.y : ℝ)) ^ 2 = 25 := by
      norm_num [targetRow1, defenderRow, baseRow]
    show Real.sqrt (((defenderRow.x : ℝ) - (targetRow1.x : ℝ)) ^ 2 +
      ((defenderRow.y : ℝ) - (targetRow1.y : ℝ)) ^ 2) = 5
    rw [hx, show (25 : ℝ) = 5 ^ 2 by norm_num]
    exact Real.sqrt_sq (by norm_num)
  have hcov : compute_coverage_tightness onePlay = some 5 := by
    rw [coverage_eq_metricAtFrame,
      metricAtFrame_eq_some onePlay 1 targetRow1 [] defenderRow [] h1 h2]
    rw [List.map_cons, List.map_nil, hd]
    rfl
  have hrec : (build_play 1 1 onePlay none []).coverageTightness = some (round1 5) := by
    rw [build_play_coverage, hcov]
    show (if (5 : ℝ) = 0 then none else some (round1 5)) = some (round1 5)
    rw [if_neg (by norm_num)]
  exact ⟨hrec, (metric_null_amended_spec 1 1 onePlay none []).2.1 (round1 5) hrec⟩

/-- C7: the field-zone classifier is a total pure function onto exactly the
four labels; a missing value gives `unknown`, a value of at most 20 gives
`redzone` (20 included), a value above 20 and at most 50 gives `midfield`
(50 included), and a value above 50 gives `own_territory`. -/
theorem field_zone_spec (yardline : Option ℚ) :
    get_field_zone yardline ∈ ["unknown", "redzone", "midfield", "own_territory"] ∧
    (get_field_zone yardline = "unknown" ↔ yardline = none) ∧
    ∀ q, yardline = some q →
      ((get_field_zone yardline = "redzone" ↔ q ≤ 20) ∧
        (get_field_zone yardline = "midfield" ↔ 20 < q ∧ q ≤ 50) ∧
        (get_field_zone yardline = "own_territory" ↔ 50 < q)) := by
  cases yardline with
  | none =>
    refine ⟨by simp [get_field_zone], by simp [get_field_zone], ?_⟩
    intro q hq
    exact absurd hq (by simp)
  | some q =>
    have hz : get_field_zone (some q) =
        if q ≤ 20 then "redzone" else if q ≤ 50 then "midfield" else "own_territory" := rfl
    by_cases h1 : q ≤ 20
    · rw [hz, if_pos h1]
      refine ⟨by simp, ⟨fun h => absurd h (by decide), fun h => absurd h (by simp)⟩, ?_⟩
      intro q2 hq2
      obtain rfl : q2 = q := (Option.some.inj hq2).symm
      exact ⟨⟨fun _ => h1, fun _ => rfl⟩,
        ⟨fun h => absurd h (by decide), fun h => absurd h1 (not_le.mpr h.1)⟩,
        ⟨fun h => absurd h (by decide), fun h => absurd h1 (not_le.mpr (by linarith))⟩⟩
    · by_cases h2 : q ≤ 50
      · rw [hz, if_neg h1, if_pos h2]
        refine ⟨by simp, ⟨fun h => absurd h (by decide), fun h => absurd h (by simp)⟩, ?_⟩
        intro q2 hq2
        obtain rfl : q2 = q := (Option.some.inj hq2).symm
        exact ⟨⟨fun h => absurd h (by decide), fun h => absurd h h1⟩,
          ⟨fun _ => ⟨not_le.mp h1, h2⟩, fun _ => rfl⟩,
          ⟨fun h => absurd h (by decide), fun h => absurd h2 (not_le.mpr h)⟩⟩
      · rw [hz, if_neg h1, if_neg h2]
        refine ⟨by simp, ⟨fun h => absurd h (by decide), fun h => absurd h (by simp)⟩, ?_⟩
        intro q2 hq2
        obtain rfl : q2 = q := (Option.some.inj hq2).symm
        exact ⟨⟨fun h => absurd h (by decide), fun h => absurd h h1⟩,
          ⟨fun h => absurd h (by decide), fun h => absurd h.2 h2⟩,
          ⟨fun _ => not_le.mp h2, fun _ => rfl⟩⟩

/-- C7 witness: the classifier specification evaluated at the claim's own
boundary examples: 20, 20.01 and a missing value. -/
theorem field_zone_spec_witness :
    get_field_zone (some 20) = "redzone" ∧
    get_field_zone (some (2001 / 100)) = "midfield" ∧
    get_field_zone none = "unknown" :=
  ⟨((field_zone_spec (some 20)).2.2 20 rfl).1.mpr (by norm_num),
    ((field_zone_spec (some (2001 / 100))).2.2 (2001 / 100) rfl).2.1.mpr (by norm_num),
    (field_zone_spec none).2.1.mpr rfl⟩

/-- C8: the tendency rollup holds an entry for a team exactly when at least
10 of the play records carry that offense code (9 plays give no entry, 10
do). -/
theorem tendency_min_sample_iff (plays : List PlayObj) (team : String) :
    (∃ s, (team, s) ∈ compute_tendencies plays) ↔
      10 ≤ (teamPlays plays team).length := by
  constructor
  · rintro ⟨s, hs⟩
    exact (mem_compute_tendencies plays team s hs).2
  · intro h10
    have hmem : team ∈ teamKeys plays := by
      cases hg : teamPlays plays team with
      | nil =>
        rw [hg] at h10
        simp at h10
      | cons p l =>
        have hp : p ∈ teamPlays plays team := by
          rw [hg]
          exact List.mem_cons_self p l
        have hp2 := List.mem_filter.mp hp
        have hoff : offenseOf p = team := of_decide_eq_true hp2.2
        show team ∈ (plays.map offenseOf).dedup
        rw [List.mem_dedup]
        exact hoff ▸ List.mem_map_of_mem offenseOf hp2.1
    refine ⟨mkStats (teamPlays plays team), ?_⟩
    unfold compute_tendencies
    refine List.mem_filterMap.mpr ⟨team, hmem, ?_⟩
    rw [if_neg (by omega)]

/-- C9: for every retained team, passRate and runRate are the pass/run play
counts divided by the team's total play count (not by the pass+run total),
and their sum is at most 1. -/
theorem tendency_rate_spec (plays : List PlayObj) (team : String) (s : TeamStats)
    (h : (team, s) ∈ compute_tendencies plays) :
    s.passRate = ((pass_plays (teamPlays plays team)).length : ℝ) /
      ((teamPlays plays team).length : ℝ) ∧
    s.runRate = ((run_plays (teamPlays plays team)).length : ℝ) /
      ((teamPlays plays team).length : ℝ) ∧
    s.passRate + s.runRate ≤ 1 := by
  obtain ⟨rfl, h10⟩ := mem_compute_tendencies plays team s h
  cases hg : teamPlays plays team with
  | nil =>
    rw [hg] at h10
    simp at h10
  | cons a l =>
    have hpass : (mkStats (a :: l)).passRate =
        ((pass_plays (a :: l)).length : ℝ) / ((a :: l).length : ℝ) := rfl
    have hrun : (mkStats (a :: l)).runRate =
        ((run_plays (a :: l)).length : ℝ) / ((a :: l).length : ℝ) := rfl
    refine ⟨hpass, hrun, ?_⟩
    rw [hpass, hrun, div_add_div_same]
    have hdisj : ∀ p ∈ (a :: l),
        ¬(decide (playTypeOf p = some "pass") = true ∧
          decide (playTypeOf p = some "run") = true) := by
      intro p hp hand
      have hp1 := of_decide_eq_true hand.1
      have hp2 := of_decide_eq_true hand.2
      rw [hp1] at hp2
      exact absurd (Option.some.inj hp2) (by decide)
    have hlen : (pass_plays (a :: l)).length + (run_plays (a :: l)).length ≤
        (a :: l).length :=
      length_filter_disjoint_le _ _ (a :: l) hdisj
    have hpos : 0 < (a :: l).length := Nat.succ_pos l.length
    rw [div_le_one (by exact_mod_cast hpos)]
    exact_mod_cast hlen

/-- The metadata block shared by the ten concrete test play records. -/
def metaAAA : MetaObj :=
  { down := 1, yardsToGo := 10, playType := "pass", yardsGained := 5, shotgun := false,
    passLength := none, passLocation := none, offense := "AAA", defense := "BBB",
    quarter := 1, description := "" }

/-- A concrete play record for offense team AAA with no coverage value. -/
def basePlayObj : PlayObj :=
  { gameId := 1, playId := 1, direction := "right", yardline := 30, ballLandX := none,
    ballLandY := none, numFrames := 1, numInputFrames := 1, numOutputFrames := 0,
    players := [], coverageTightness := none, separation := none, fieldZone := "midfield",
    playMeta := some metaAAA }

/-- Ten identical plays for team AAA: enough for the rollup to retain it. -/
def tenPlays : List PlayObj := List.replicate 10 basePlayObj

/-- The rollup over `tenPlays` retains team AAA. -/
theorem tenPlays_mem :
    ("AAA", mkStats (teamPlays tenPlays "AAA")) ∈ compute_tendencies tenPlays := by
  unfold compute_tendencies
  refine List.mem_filterMap.mpr ⟨"AAA", ?_, ?_⟩
  · show "AAA" ∈ teamKeys tenPlays
    decide
  · have hlen : (teamPlays tenPlays "AAA").length = 10 := by decide
    rw [if_neg (by omega)]

/-- C9 witness: the rate specification applied to the concrete ten-play
rollup for team AAA. -/
theorem tendency_rate_spec_witness :
    (("AAA", mkStats (teamPlays tenPlays "AAA")) ∈ compute_tendencies tenPlays) ∧
    (mkStats (teamPlays tenPlays "AAA")).passRate +
      (mkStats (teamPlays tenPlays "AAA")).runRate ≤ 1 :=
  ⟨tenPlays_mem, (tendency_rate_spec tenPlays "AAA" _ tenPlays_mem).2.2⟩

/-- C10: for every retained team, the avgCoverage denominator is clamped to
at least 1 by the `max(1, ...)` guard, avgCoverage is that guarded quotient,
and when no play of the group has a truthy coverage value the average is 0
rather than a division error. -/
theorem avg_coverage_safe_spec (plays : List PlayObj) (team : String) (s : TeamStats)
    (h : (team, s) ∈ compute_tendencies plays) :
    1 ≤ covDen (teamPlays plays team) ∧
    s.avgCoverage = covSum (teamPlays plays team) / (covDen (teamPlays plays team) : ℝ) ∧
    ((∀ p ∈ teamPlays plays team, ¬covTruthy p) → s.avgCoverage = 0) := by
  obtain ⟨rfl, h10⟩ := mem_compute_tendencies plays team s h
  refine ⟨le_max_left 1 _, rfl, ?_⟩
  intro hall
  have hnil : covPlays (teamPlays plays team) = [] := by
    show (teamPlays plays team).filter (fun p => decide (covTruthy p)) = []
    rw [List.filter_eq_nil_iff]
    intro p hp
    simp only [decide_eq_true_eq]
    exact hall p hp
  show covSum (teamPlays plays team) / (covDen (teamPlays plays team) : ℝ) = 0
  unfold covSum
  rw [hnil]
  simp

/-- C10 witness: on the concrete ten-play rollup, where no play has a truthy
coverage value, avgCoverage evaluates to 0. -/
theorem avg_coverage_safe_spec_witness :
    (("AAA", mkStats (teamPlays tenPlays "AAA")) ∈ compute_tendencies tenPlays) ∧
    (mkStats (teamPlays tenPlays "AAA")).avgCoverage = 0 := by
  have hall : ∀ p ∈ teamPlays tenPlays "AAA", ¬covTruthy p := by
    intro p hp
    have hp2 := List.mem_filter.mp hp
    have hpb : p = basePlayObj := List.eq_of_mem_replicate hp2.1
    subst hpb
    show ¬covTruthy basePlayObj
    simp [covTruthy, basePlayObj]
  exact ⟨tenPlays_mem, (avg_coverage_safe_spec tenPlays "AAA" _ tenPlays_mem).2.2 hall⟩
